import Mathlib

/-!
Shallow embedding of the rusty_nrrd repository (NRRD raster file reader/writer
with a typed, dimension-generic image container).

The embedding follows the modules of the source:
- `src/src/nrrd/mod.rs`   : data model (Version, Field, KeyValue, PixelType,
  Encoding, Endian, Nrrd) and the `From<&Image<T, D>> for Nrrd` encoder;
- `src/src/pixel.rs`      : the pixel codec (`from_bytes` / `to_bytes`);
- `src/src/reader.rs`     : `read_nrrd` / `read_header` and the
  `RequiredFields` validation state machine;
- `src/src/nrrd/writer.rs`: `write_nrrd`;
- `src/src/image.rs`      : `Image<T, D>`, `offset`, `get`, and
  `TryFrom<&Nrrd> for Image<T, D>`.

Conventions of the embedding:
- Rust strings are modelled as lists of bytes (`List Nat`, each byte < 256 on
  real inputs); `strB` converts an ASCII Lean string literal to such a list.
  The Unicode-aware Rust operations (`to_lowercase`, `trim_end`,
  `split_whitespace`) are modelled at the ASCII level, which coincides with
  the source behaviour on ASCII header text.
- Machine integers are modelled as `Nat` / `Int` with explicit reduction
  modulo 2^32 / 2^64 where Rust performs an `as` cast.
- A Rust panic (out-of-bounds slice index) is modelled by an `Option` layer:
  `none` means the source code panics.
- Scalar values of the pixel types are modelled by their bit patterns, i.e.
  a `Nat` below 2^(8 * width).  `from_le_bytes` / `from_be_bytes` and their
  inverses act on bit patterns for every scalar type (two-complement integers
  and IEEE floats alike), so this covers all ten `PixelValue` instances,
  NaN payloads included.
-/

namespace RustyNrrd

/-- Bytes of an ASCII string literal. -/
def strB (s : String) : List Nat :=
  s.data.map Char.toNat

/-- Truncating cast `usize -> i32` (Rust `x as i32`). -/
def usizeToI32 (x : Nat) : Int :=
  let r : Nat := x % 2 ^ 32
  if r < 2 ^ 31 then (r : Int) else (r : Int) - 2 ^ 32

/-- Sign-extending cast `i32 -> usize` (Rust `x as usize` on an `i32`). -/
def i32ToUsize (x : Int) : Nat :=
  (x % 2 ^ 64).toNat

/-- Wrap an integer into the value range of `i32` (release-mode wrapping
arithmetic). -/
def i32wrap (x : Int) : Int :=
  let r : Int := x % 2 ^ 32
  if r < 2 ^ 31 then r else r - 2 ^ 32

section Codec

/-- Little-endian reassembly of a byte list into a bit pattern, as in
`<T>::from_le_bytes` (`src/src/pixel.rs`).  Each byte is reduced mod 256,
reflecting its `u8` type. -/
def fromLE : List Nat → Nat
  | [] => 0
  | b :: rest => b % 256 + 256 * fromLE rest

/-- Little-endian byte serialization of a bit pattern, `width` bytes, as in
`<T>::to_le_bytes` (`src/src/pixel.rs`). -/
def toLE : Nat → Nat → List Nat
  | 0, _ => []
  | w + 1, v => v % 256 :: toLE w (v / 256)

inductive Endian where
  | Little
  | Big
deriving DecidableEq, Inhabited

/-- `PixelValue::to_bytes` (`src/src/pixel.rs`): the `width` bytes written
into the destination slice.  `to_be_bytes` is the reversal of
`to_le_bytes`. -/
def to_bytes (width : Nat) (v : Nat) (endian : Endian) : List Nat :=
  match endian with
  | .Little => toLE width v
  | .Big => (toLE width v).reverse

/-- Total evaluator behind `PixelValue::from_bytes` (`src/src/pixel.rs`):
reassemble the first `width` bytes of the buffer under the given byte order.
The source copies `buffer[..SIZE]` and applies `from_le_bytes` /
`from_be_bytes`; the out-of-bounds panic of that copy is accounted for
separately (`from_bytes`). -/
def fromBytesTrunc (width : Nat) (buffer : List Nat) (endian : Endian) : Nat :=
  match endian with
  | .Little => fromLE (buffer.take width)
  | .Big => fromLE (buffer.take width).reverse

/-- `PixelValue::from_bytes` (`src/src/pixel.rs`): reads exactly `width`
bytes from the front of the buffer; `none` models the panic of
`buffer[..SIZE]` when fewer bytes remain. -/
def from_bytes (width : Nat) (buffer : List Nat) (endian : Endian) : Option Nat :=
  if width ≤ buffer.length then some (fromBytesTrunc width buffer endian) else none

end Codec

section DataModel

/-- `Version` (`src/src/nrrd/mod.rs`). -/
inductive Version where
  | Nrrd1
  | Nrrd2
  | Nrrd3
  | Nrrd4
  | Nrrd5
deriving DecidableEq, Inhabited

/-- Rank of a `Version` in the derived `PartialOrd` order of the source. -/
def Version.rank : Version → Nat
  | .Nrrd1 => 0
  | .Nrrd2 => 1
  | .Nrrd3 => 2
  | .Nrrd4 => 3
  | .Nrrd5 => 4

/-- `Field` (`src/src/nrrd/mod.rs`): identifier and descriptor as byte
strings.  In the source, equality and hashing are by `identifier` only; the
set operations below compare identifiers accordingly. -/
structure Field where
  identifier : List Nat
  descriptor : List Nat
deriving DecidableEq, Inhabited

/-- `KeyValue` (`src/src/nrrd/mod.rs`). -/
structure KeyValue where
  key : List Nat
  value : List Nat
deriving DecidableEq, Inhabited

/-- `PixelType` (`src/src/nrrd/mod.rs`); `Block` carries an `i32` size. -/
inductive PixelType where
  | Int8
  | UInt8
  | Int16
  | UInt16
  | Int32
  | UInt32
  | Int64
  | UInt64
  | Float32
  | Float64
  | Block (size : Int)
deriving DecidableEq, Inhabited

/-- `PixelType::size` (`src/src/nrrd/mod.rs`): byte width; for `Block` the
source performs `size as usize`. -/
def PixelType.size : PixelType → Nat
  | .Int8 | .UInt8 => 1
  | .Int16 | .UInt16 => 2
  | .Int32 | .UInt32 | .Float32 => 4
  | .Int64 | .UInt64 | .Float64 => 8
  | .Block s => i32ToUsize s

/-- The pixel types that have a `PixelValue` implementation
(`src/src/pixel.rs`), i.e. every variant except `Block`. -/
def PixelType.isScalar : PixelType → Prop
  | .Block _ => False
  | _ => True

instance (pt : PixelType) : Decidable pt.isScalar := by
  cases pt <;> simp [PixelType.isScalar] <;> infer_instance

/-- `PixelType::to_string` (`src/src/nrrd/mod.rs`). -/
def PixelType.toBytes : PixelType → List Nat
  | .Int8 => strB "int8"
  | .UInt8 => strB "uint8"
  | .Int16 => strB "int16"
  | .UInt16 => strB "uint16"
  | .Int32 => strB "int32"
  | .UInt32 => strB "uint32"
  | .Int64 => strB "int64"
  | .UInt64 => strB "uint64"
  | .Float32 => strB "float"
  | .Float64 => strB "double"
  | .Block _ => strB "block"

/-- `Encoding` (`src/src/nrrd/mod.rs`). -/
inductive Encoding where
  | Raw
  | Ascii
  | GZip
  | BZip2
  | Other (token : List Nat)
deriving DecidableEq, Inhabited

/-- `Nrrd` (`src/src/nrrd/mod.rs`).  The two hash sets are modelled as lists
in iteration order (the source iteration order of a `HashSet` is
unspecified; all theorems below are stated for an arbitrary order). -/
structure Nrrd where
  version : Version
  fields : List Field
  key_values : List KeyValue
  dimension : Int
  sizes : List Int
  pixel_type : PixelType
  encoding : Encoding
  endian : Endian
  buffer : List Nat
deriving DecidableEq, Inhabited

/-- `ReadNrrdErr` (`src/src/reader.rs`).  The source stores formatted
message strings; the embedding keeps the distinguishing data structurally,
one constructor per distinct message produced by the reader:
- `DuplicateField ident line`: the DuplicateField message naming the
  identifier and the 1-based line number;
- `UnknownVersion magic`: unknown NRRD version, carrying the magic line;
- `MalformedUnexpectedLine line text`: the catch-all Unexpected-line
  message with the line number and line text;
- the remaining constructors are the Malformed messages with fixed text
  (Invalid DIMENSION value, Per-axis specification before DIMENSION,
  Invalid SIZES value, Too many SIZES, Mismatched DIMENSION and SIZES,
  Invalid TYPE value, Invalid BLOCK SIZE value, Invalid ENDIAN value,
  Missing DIMENSION field, Missing SIZES field, Missing BLOCK SIZE field,
  Missing TYPE field, Missing ENDIAN field, Missing ENCODING field,
  Buffer size mismatch).  `IOError` is not modelled: the embedding reads
  from a pure byte list, which never fails. -/
inductive ReadNrrdErr where
  | DuplicateField (identifier : List Nat) (line : Nat)
  | UnknownVersion (magic : List Nat)
  | MalformedUnexpectedLine (line : Nat) (text : List Nat)
  | MalformedInvalidDimension
  | MalformedSizesBeforeDimension
  | MalformedInvalidSizes
  | MalformedTooManySizes
  | MalformedMismatchedDimensionSizes
  | MalformedInvalidType
  | MalformedInvalidBlockSize
  | MalformedInvalidEndian
  | MalformedMissingDimension
  | MalformedMissingSizes
  | MalformedMissingBlockSize
  | MalformedMissingType
  | MalformedMissingEndian
  | MalformedMissingEncoding
  | MalformedBufferSizeMismatch
deriving DecidableEq, Inhabited

/-- `Image<T, D>` (`src/src/image.rs`): a contiguous pixel buffer plus a
`D`-element sizes array.  The structure invariants reflect what the Rust
type and the private constructors guarantee: the sizes array has exactly
`D` entries and the buffer holds exactly `product(sizes)` pixels.  Pixels
are bit patterns of the scalar type `pt`; representability
(`p < 2 ^ (8 * pt.size)`) is carried as an explicit hypothesis by the
theorems that need it. -/
structure Image (pt : PixelType) (D : Nat) where
  pixels : List Nat
  sizes : List Nat
  h_sizes : sizes.length = D
  h_pixels : pixels.length = sizes.prod

/-- `Image::offset` (`src/src/image.rs`): the loop
`for i in 0..D { offset += index[i] * stride; stride *= sizes[i] }`,
with the first axis varying fastest. -/
def offsetAux : List Nat → List Nat → Nat → Nat
  | i :: is, s :: ss, stride => i * stride + offsetAux is ss (stride * s)
  | _, _, _ => 0

def Image.offsetOf {pt : PixelType} {D : Nat} (img : Image pt D) (index : List Nat) : Nat :=
  offsetAux index img.sizes 1

/-- `Image::get` (`src/src/image.rs`): `&self.buffer[self.offset(index)]`.
`none` models the index-out-of-bounds panic of the `Vec` access. -/
def Image.get? {pt : PixelType} {D : Nat} (img : Image pt D) (index : List Nat) : Option Nat :=
  img.pixels[img.offsetOf index]?

end DataModel

section Conversion

/-- `Vec::join(" ")` over decimal renderings, as used for the `sizes`
descriptor in `From<&Image<T, D>> for Nrrd` (`src/src/nrrd/mod.rs`). -/
def joinSpaceSep (l : List (List Nat)) : List Nat :=
  match l with
  | [] => []
  | x :: xs => x ++ (xs.map (fun y => strB " " ++ y)).flatten

/-- `From<&Image<T, D>> for Nrrd` (`src/src/nrrd/mod.rs`): encode an image
into an on-disk record.  Always little endian, raw encoding, newest
version; the buffer is each pixel serialized at its stride-ordered offset
(the source pre-allocates `pixels_count * pixel_size` zero bytes and
overwrites every slot, which by the `Image` length invariant is exactly the
concatenation of the per-pixel byte blocks). -/
def Nrrd.fromImage {pt : PixelType} {D : Nat} (img : Image pt D) : Nrrd where
  version := .Nrrd5
  fields :=
    [ { identifier := strB "type", descriptor := pt.toBytes },
      { identifier := strB "dimension", descriptor := strB (toString D) },
      { identifier := strB "sizes",
        descriptor := joinSpaceSep (img.sizes.map (fun s => strB (toString s))) },
      { identifier := strB "endian", descriptor := strB "little" },
      { identifier := strB "encoding", descriptor := strB "raw" } ]
  key_values := []
  dimension := usizeToI32 D
  sizes := img.sizes.map (fun s => usizeToI32 s)
  pixel_type := pt
  encoding := .Raw
  endian := .Little
  buffer := (img.pixels.map (fun p => to_bytes pt.size p Endian.Little)).flatten

/-- `ImageFromNrrdErr` (`src/src/image.rs`). -/
inductive ImageFromNrrdErr where
  | DimensionsDoNotMatch
  | PixelTypesDoNotMatch
  | CannotReadNrrd (e : ReadNrrdErr)
  | UnsupportedEncoding
deriving DecidableEq, Inhabited

/-- The image built by the success path of `TryFrom<&Nrrd> for Image<T, D>`
(`src/src/image.rs`): `sizes` are the first `D` record sizes cast to
`usize`, and pixel `i` is decoded from the byte window starting at
`i * pixel_size` under the record endianness. -/
def mkDecoded (pt : PixelType) (D : Nat) (sizes : List Nat) (buf : List Nat)
    (e : Endian) (h1 : sizes.length = D) : Image pt D where
  pixels := (List.range sizes.prod).map
    (fun i => fromBytesTrunc pt.size (buf.drop (i * pt.size)) e)
  sizes := sizes
  h_sizes := h1
  h_pixels := by simp

/-- `TryFrom<&Nrrd> for Image<T, D>` (`src/src/image.rs`).  The parameter
`pt` stands for `T::pixel_type()`.  The outer `Option` models panics:
`none` is the panic raised by `nrrd.sizes()[i]` when the record has fewer
than `D` sizes, or by the byte-window slicing when the record buffer is
shorter than `pixels * pixel_size`. -/
def tryFromNrrd (pt : PixelType) (D : Nat) (n : Nrrd) :
    Option (Except ImageFromNrrdErr (Image pt D)) :=
  if i32ToUsize n.dimension ≠ D then
    some (Except.error ImageFromNrrdErr.DimensionsDoNotMatch)
  else if pt ≠ n.pixel_type then
    some (Except.error ImageFromNrrdErr.PixelTypesDoNotMatch)
  else if n.encoding ≠ Encoding.Raw then
    some (Except.error ImageFromNrrdErr.UnsupportedEncoding)
  else if hsz : D ≤ n.sizes.length then
    if ((n.sizes.take D).map i32ToUsize).prod * pt.size ≤ n.buffer.length then
      some (Except.ok (mkDecoded pt D ((n.sizes.take D).map i32ToUsize) n.buffer n.endian
        (by simp [Nat.min_eq_left hsz])))
    else none
  else none

end Conversion

section Writer

/-- `field_order` (`src/src/nrrd/writer.rs`): sort key giving `type`,
`dimension`, `sizes` priority; everything else gets `usize::MAX`. -/
def field_order (f : Field) : Nat :=
  if f.identifier = strB "type" then 0
  else if f.identifier = strB "dimension" then 1
  else if f.identifier = strB "sizes" then 2
  else 2 ^ 64 - 1

/-- One step of a stable sort by key: insert `f` after all entries whose key
is not greater. -/
def insertByKey (key : Field → Nat) (f : Field) : List Field → List Field
  | [] => [f]
  | g :: gs => if key g ≤ key f then g :: insertByKey key f gs else f :: g :: gs

/-- `Vec::sort_by_key` (used in `write_nrrd`, `src/src/nrrd/writer.rs`):
a stable sort by key, modelled as left-to-right insertions. -/
def sortByKey (key : Field → Nat) (l : List Field) : List Field :=
  l.foldl (fun acc f => insertByKey key f acc) []

/-- One serialized field line of the writer: `<identifier>: <descriptor>`
followed by a newline. -/
def fieldLine (f : Field) : List Nat :=
  f.identifier ++ strB ": " ++ f.descriptor ++ [10]

/-- One serialized key-value line of the writer: `<key>:=<value>` followed
by a newline. -/
def kvLine (kv : KeyValue) : List Nat :=
  kv.key ++ strB ":=" ++ kv.value ++ [10]

/-- `write_nrrd` (`src/src/nrrd/writer.rs`): magic line, fields sorted by
`field_order`, key-value lines, one blank line, then the raw buffer. -/
def write_nrrd (n : Nrrd) : List Nat :=
  strB "NRRD0005" ++ [10]
    ++ ((sortByKey field_order n.fields).map fieldLine).flatten
    ++ (n.key_values.map kvLine).flatten
    ++ [10]
    ++ n.buffer

end Writer

section Reader

/-- `remove_trailing_new_line` (`src/src/reader.rs`): strip one trailing
CRLF or LF. -/
def remove_trailing_new_line (line : List Nat) : List Nat :=
  if line.drop (line.length - 2) = [13, 10] then line.take (line.length - 2)
  else if line.drop (line.length - 1) = [10] then line.take (line.length - 1)
  else line

/-- `str::split_once` for a non-empty separator: split at the first
occurrence of `sep`, returning the parts before and after it. -/
def splitOnce (sep : List Nat) : List Nat → Option (List Nat × List Nat)
  | [] => none
  | b :: rest =>
    if (b :: rest).take sep.length = sep then some ([], (b :: rest).drop sep.length)
    else
      match splitOnce sep rest with
      | some (x, y) => some (b :: x, y)
      | none => none

/-- ASCII `str::to_lowercase` (the header identifiers handled by the reader
are ASCII). -/
def lowerBytes (l : List Nat) : List Nat :=
  l.map (fun b => if 65 ≤ b ∧ b ≤ 90 then b + 32 else b)

/-- ASCII whitespace (`u8::is_ascii_whitespace` plus vertical tab, matching
the ASCII fragment of Unicode whitespace used by `trim_end` and
`split_whitespace`). -/
def isWsByte (b : Nat) : Bool :=
  b == 9 || b == 10 || b == 11 || b == 12 || b == 13 || b == 32

/-- ASCII `str::trim_end`. -/
def trimEnd (l : List Nat) : List Nat :=
  (l.reverse.dropWhile isWsByte).reverse

/-- Worker for `splitWs` with the current (reversed) word accumulator. -/
def splitWsGo : List Nat → List Nat → List (List Nat)
  | [], acc => if acc = [] then [] else [acc.reverse]
  | b :: rest, acc =>
    if isWsByte b then
      if acc = [] then splitWsGo rest [] else acc.reverse :: splitWsGo rest []
    else splitWsGo rest (b :: acc)

/-- ASCII `str::split_whitespace`: maximal non-whitespace runs. -/
def splitWs (l : List Nat) : List (List Nat) :=
  splitWsGo l []

/-- Value of an ASCII decimal digit. -/
def digitVal? (b : Nat) : Option Nat :=
  if 48 ≤ b ∧ b ≤ 57 then some (b - 48) else none

/-- Accumulate decimal digits; fails on any non-digit byte. -/
def parseDigitsGo : List Nat → Nat → Option Nat
  | [], acc => some acc
  | b :: rest, acc =>
    match digitVal? b with
    | some d => parseDigitsGo rest (acc * 10 + d)
    | none => none

/-- A non-empty all-digit byte string as a number. -/
def parseDigits (l : List Nat) : Option Nat :=
  if l = [] then none else parseDigitsGo l 0

/-- `str::parse::<i32>`: optional sign, at least one digit, nothing else,
result within the value range of `i32`. -/
def parseI32 (l : List Nat) : Option Int :=
  match l with
  | 43 :: rest =>
    (parseDigits rest).bind (fun n => if (n : Int) ≤ 2 ^ 31 - 1 then some (n : Int) else none)
  | 45 :: rest =>
    (parseDigits rest).bind (fun n => if (n : Int) ≤ 2 ^ 31 then some (-(n : Int)) else none)
  | _ =>
    (parseDigits l).bind (fun n => if (n : Int) ≤ 2 ^ 31 - 1 then some (n : Int) else none)

/-- `try_read_magic` (`src/src/reader.rs`). -/
def try_read_magic (magic_line : List Nat) : Except ReadNrrdErr Version :=
  if magic_line = strB "NRRD0001" then .ok .Nrrd1
  else if magic_line = strB "NRRD0002" then .ok .Nrrd2
  else if magic_line = strB "NRRD0003" then .ok .Nrrd3
  else if magic_line = strB "NRRD0004" then .ok .Nrrd4
  else if magic_line = strB "NRRD0005" then .ok .Nrrd5
  else .error (.UnknownVersion magic_line)

/-- `try_read_field` (`src/src/reader.rs`): split at the first colon-space,
lower-case the identifier, trim the descriptor. -/
def try_read_field (line : List Nat) : Option Field :=
  (splitOnce (strB ": ") line).map
    (fun p => { identifier := lowerBytes p.1, descriptor := trimEnd p.2 })

/-- `try_read_key_value` (`src/src/reader.rs`): split at the first `:=`,
reject an empty key. -/
def try_read_key_value (line : List Nat) : Option KeyValue :=
  (splitOnce (strB ":=") line).bind
    (fun p => if p.1 = [] then none else some { key := p.1, value := p.2 })

/-- Membership in the field set, which compares by identifier only
(the `PartialEq` of `Field` in `src/src/nrrd/mod.rs`). -/
def fieldsContains (s : List Field) (f : Field) : Bool :=
  s.any (fun g => g.identifier == f.identifier)

/-- `HashSet::insert` on the field set: the Bool is the source return value
(true when the value was newly inserted, false when an equal entry already
existed, in which case the set is unchanged). -/
def fieldsInsert (s : List Field) (f : Field) : Bool × List Field :=
  if fieldsContains s f then (false, s) else (true, s ++ [f])

/-- `HashSet::insert` on the key-value set (keyed by `key`); the source
discards the returned Bool, and an existing entry is kept unchanged. -/
def kvsInsert (s : List KeyValue) (kv : KeyValue) : List KeyValue :=
  if s.any (fun g => g.key == kv.key) then s else s ++ [kv]

/-- `RequiredFields` (`src/src/reader.rs`). -/
structure RequiredFields where
  dimension : Option Int := none
  sizes : Option (List Int) := none
  pixel_type : Option PixelType := none
  encoding : Option Encoding := none
  block_size : Option Int := none
  endian : Option Endian := none
deriving DecidableEq, Inhabited

/-- `RequiredFields::try_parse_dimension` (`src/src/reader.rs`). -/
def RequiredFields.try_parse_dimension (rf : RequiredFields) (field : Field) :
    Except ReadNrrdErr RequiredFields :=
  match parseI32 field.descriptor with
  | some d => .ok { rf with dimension := some d }
  | none => .error .MalformedInvalidDimension

/-- `RequiredFields::try_parse_sizes` (`src/src/reader.rs`): requires
`dimension` first; whitespace-separated `i32` values whose count must fit
`i32` and equal the dimension. -/
def RequiredFields.try_parse_sizes (rf : RequiredFields) (field : Field) :
    Except ReadNrrdErr RequiredFields :=
  match rf.dimension with
  | none => .error .MalformedSizesBeforeDimension
  | some d =>
    match (splitWs field.descriptor).mapM parseI32 with
    | none => .error .MalformedInvalidSizes
    | some vec =>
      if 2 ^ 31 - 1 < vec.length then .error .MalformedTooManySizes
      else if (vec.length : Int) ≠ d then .error .MalformedMismatchedDimensionSizes
      else .ok { rf with sizes := some vec }

/-- The alias table of `try_parse_type` (`src/src/reader.rs`). -/
def parsePixelType (d : List Nat) : Option PixelType :=
  if d = strB "signed char" ∨ d = strB "int8" ∨ d = strB "int8_t" then some .Int8
  else if d = strB "uchar" ∨ d = strB "unsigned char" ∨ d = strB "uint8" ∨
      d = strB "uint8_t" then some .UInt8
  else if d = strB "short" ∨ d = strB "short int" ∨ d = strB "signed short" ∨
      d = strB "signed short int" ∨ d = strB "int16" ∨ d = strB "int16_t" then some .Int16
  else if d = strB "ushort" ∨ d = strB "unsigned short" ∨
      d = strB "unsigned short int" ∨ d = strB "uint16" ∨ d = strB "uint16_t" then
    some .UInt16
  else if d = strB "int" ∨ d = strB "signed int" ∨ d = strB "int32" ∨
      d = strB "int32_t" then some .Int32
  else if d = strB "uint" ∨ d = strB "unsigned int" ∨ d = strB "uint32" ∨
      d = strB "uint32_t" then some .UInt32
  else if d = strB "longlong" ∨ d = strB "long long" ∨ d = strB "long long int" ∨
      d = strB "signed long long" ∨ d = strB "signed long long int" ∨
      d = strB "int64" ∨ d = strB "int64_t" then some .Int64
  else if d = strB "ulonglong" ∨ d = strB "unsigned long long" ∨
      d = strB "unsigned long long int" ∨ d = strB "uint64" ∨
      d = strB "uint64_t" then some .UInt64
  else if d = strB "float" then some .Float32
  else if d = strB "double" then some .Float64
  else if d = strB "block" then some (.Block 0)
  else none

/-- `RequiredFields::try_parse_type` (`src/src/reader.rs`); `block` gets a
placeholder size 0. -/
def RequiredFields.try_parse_type (rf : RequiredFields) (field : Field) :
    Except ReadNrrdErr RequiredFields :=
  match parsePixelType field.descriptor with
  | some pt => .ok { rf with pixel_type := some pt }
  | none => .error .MalformedInvalidType

/-- The alias table of `try_parse_encoding` (`src/src/reader.rs`); an
unrecognized token becomes `Other`, never an error. -/
def parseEncoding (d : List Nat) : Encoding :=
  if d = strB "raw" then .Raw
  else if d = strB "ascii" ∨ d = strB "text" ∨ d = strB "txt" then .Ascii
  else if d = strB "gzip" ∨ d = strB "gz" then .GZip
  else if d = strB "bzip2" ∨ d = strB "bz2" then .BZip2
  else .Other d

/-- `RequiredFields::try_parse_encoding` (`src/src/reader.rs`). -/
def RequiredFields.try_parse_encoding (rf : RequiredFields) (field : Field) :
    Except ReadNrrdErr RequiredFields :=
  .ok { rf with encoding := some (parseEncoding field.descriptor) }

/-- `RequiredFields::try_parse_block_size` (`src/src/reader.rs`). -/
def RequiredFields.try_parse_block_size (rf : RequiredFields) (field : Field) :
    Except ReadNrrdErr RequiredFields :=
  match parseI32 field.descriptor with
  | some s => .ok { rf with block_size := some s }
  | none => .error .MalformedInvalidBlockSize

/-- `RequiredFields::try_parse_endian` (`src/src/reader.rs`). -/
def RequiredFields.try_parse_endian (rf : RequiredFields) (field : Field) :
    Except ReadNrrdErr RequiredFields :=
  if field.descriptor = strB "little" then .ok { rf with endian := some .Little }
  else if field.descriptor = strB "big" then .ok { rf with endian := some .Big }
  else .error .MalformedInvalidEndian

/-- `RequiredFields::parse` (`src/src/reader.rs`): dispatch on the
(lower-cased) identifier; unknown identifiers are accepted unchanged. -/
def RequiredFields.parse (rf : RequiredFields) (field : Field) :
    Except ReadNrrdErr RequiredFields :=
  if field.identifier = strB "dimension" then rf.try_parse_dimension field
  else if field.identifier = strB "sizes" then rf.try_parse_sizes field
  else if field.identifier = strB "type" then rf.try_parse_type field
  else if field.identifier = strB "encoding" then rf.try_parse_encoding field
  else if field.identifier = strB "block size" ∨ field.identifier = strB "blocksize" then
    rf.try_parse_block_size field
  else if field.identifier = strB "endian" then rf.try_parse_endian field
  else .ok rf

/-- The type/block-size/endian part of `RequiredFields::validate`
(`src/src/reader.rs`, the `match` on `self.pixel_type`): for a `Block` type
substitute a positive block size, for other types the match on
`(self.endian, self.pixel_type)` accepts exactly an absent endian paired
with an 8-bit type and reports Missing ENDIAN otherwise. -/
def RequiredFields.validateType (rf : RequiredFields) :
    Except ReadNrrdErr RequiredFields :=
  match rf.pixel_type with
  | some (.Block _) =>
    match rf.block_size with
    | some s =>
      if 0 < s then .ok { rf with pixel_type := some (.Block s) }
      else .error .MalformedInvalidBlockSize
    | none => .error .MalformedMissingBlockSize
  | some _ =>
    match rf.endian, rf.pixel_type with
    | none, some .Int8 => .ok rf
    | none, some .UInt8 => .ok rf
    | _, _ => .error .MalformedMissingEndian
  | none => .error .MalformedMissingType

/-- `RequiredFields::validate` (`src/src/reader.rs`): dimension, sizes, the
type/endian/block-size match, then encoding, in this order. -/
def RequiredFields.validate (rf : RequiredFields) :
    Except ReadNrrdErr RequiredFields :=
  if rf.dimension.isNone then .error .MalformedMissingDimension
  else if rf.sizes.isNone then .error .MalformedMissingSizes
  else
    match rf.validateType with
    | .error e => .error e
    | .ok rf2 =>
      if rf2.encoding.isNone then .error .MalformedMissingEncoding
      else .ok rf2

/-- Outcome of one iteration of the body-line loop of `read_header`. -/
inductive StepRes where
  | done
  | fail (e : ReadNrrdErr)
  | next (fields : List Field) (kvs : List KeyValue) (rf : RequiredFields)

/-- One iteration of the body-line loop of `read_header`
(`src/src/reader.rs`): strip the line terminator (the loop body repeats the
strip), compare against a literal newline for the end of the header, skip
comments, try a field (with duplicate detection keyed on the Bool returned
by the set insertion), then — only from version Nrrd2 on — try a key-value
line, and otherwise report the Unexpected-line error. -/
def classifyLine (version : Version) (rawLine : List Nat) (fields : List Field)
    (kvs : List KeyValue) (rf : RequiredFields) (line_num : Nat) : StepRes :=
  let line := remove_trailing_new_line rawLine
  let line := remove_trailing_new_line line
  if line = [10] ∨ line = [13, 10] then .done
  else if line.take 1 = [35] then .next fields kvs rf
  else
    match try_read_field line with
    | some field =>
      match rf.parse field with
      | .error e => .fail e
      | .ok rf2 =>
        let ins := fieldsInsert fields field
        if ins.1 then .fail (.DuplicateField field.identifier line_num)
        else .next ins.2 kvs rf2
    | none =>
      if version.rank < Version.Nrrd2.rank then
        .fail (.MalformedUnexpectedLine line_num line)
      else
        match try_read_key_value line with
        | some kv => .next fields (kvsInsert kvs kv) rf
        | none => .fail (.MalformedUnexpectedLine line_num line)

/-- The `Nrrd` built from the validated `RequiredFields` at the end of
`read_header` (`src/src/reader.rs`); the source unwraps the options
(`validate` has ensured they are present) and defaults an absent endian to
little; the buffer starts empty. -/
def buildNrrd (version : Version) (fields : List Field) (kvs : List KeyValue)
    (req : RequiredFields) : Nrrd where
  version := version
  fields := fields
  key_values := kvs
  dimension := req.dimension.getD 0
  sizes := req.sizes.getD []
  pixel_type := req.pixel_type.getD default
  encoding := req.encoding.getD default
  endian := req.endian.getD Endian.Little
  buffer := []

/-- The body-line loop of `read_header` (`src/src/reader.rs`) over the
remaining input lines.  At end of stream `read_line` yields the empty line;
an empty line never matches the break, comment, field, or key-value
branches (`classifyLine_nil` below), so the loop fails there for every
version — the catch-all branch of the outer match is unreachable. -/
def readBody (version : Version) :
    List (List Nat) → List Field → List KeyValue → RequiredFields → Nat →
    Except ReadNrrdErr (Nrrd × List (List Nat))
  | [], fields, kvs, rf, line_num =>
    match classifyLine version [] fields kvs rf (line_num + 1) with
    | .fail e => .error e
    | _ => .error (.MalformedUnexpectedLine (line_num + 1) [])
  | rawLine :: rest, fields, kvs, rf, line_num =>
    match classifyLine version rawLine fields kvs rf (line_num + 1) with
    | .done => rf.validate.map (fun req => (buildNrrd version fields kvs req, rest))
    | .fail e => .error e
    | .next fields2 kvs2 rf2 => readBody version rest fields2 kvs2 rf2 (line_num + 1)

/-- Worker for `splitLines` carrying the reversed current line. -/
def splitLinesGo : List Nat → List Nat → List (List Nat)
  | [], acc => if acc = [] then [] else [acc.reverse]
  | b :: rest, acc =>
    if b = 10 then (acc.reverse ++ [10]) :: splitLinesGo rest []
    else splitLinesGo rest (b :: acc)

/-- The sequence of lines `BufRead::read_line` yields on the stream: each
line includes its terminating newline, except possibly the last. -/
def splitLines (stream : List Nat) : List (List Nat) :=
  splitLinesGo stream []

/-- `read_header` (`src/src/reader.rs`): read the magic line (one strip of
the terminator), then run the body-line loop; on success also return the
lines not yet consumed. -/
def read_header (stream : List Nat) : Except ReadNrrdErr (Nrrd × List (List Nat)) :=
  let lines := splitLines stream
  match try_read_magic (remove_trailing_new_line (lines.headD [])) with
  | .error e => .error e
  | .ok version => readBody version lines.tail [] [] {} 0

/-- `validate_buffer_size` (`src/src/reader.rs`): the buffer length must be
the pixel size times the number of pixels, the latter computed as the `i32`
product of the sizes (wrapping, as in release builds) cast to `usize`. -/
def validate_buffer_size (n : Nrrd) : Bool :=
  let num_pixels := i32ToUsize (n.sizes.foldl (fun a b => i32wrap (a * b)) 1)
  n.buffer.length == n.pixel_type.size * num_pixels

/-- `read_nrrd` (`src/src/reader.rs`): header, then the rest of the stream
as the buffer, then the buffer size validation. -/
def read_nrrd (stream : List Nat) : Except ReadNrrdErr Nrrd :=
  match read_header stream with
  | .error e => .error e
  | .ok (hdr, restLines) =>
    let nrrd := { hdr with buffer := restLines.flatten }
    if validate_buffer_size nrrd then .ok nrrd
    else .error .MalformedBufferSizeMismatch

/-- `Image::try_read_nrrd` (`src/src/image.rs`): `read_nrrd` followed by
`TryFrom<&Nrrd>`; a reader error is wrapped in `CannotReadNrrd`. -/
def Image.try_read_nrrd (pt : PixelType) (D : Nat) (stream : List Nat) :
    Option (Except ImageFromNrrdErr (Image pt D)) :=
  match read_nrrd stream with
  | .error e => some (.error (.CannotReadNrrd e))
  | .ok nrrd => tryFromNrrd pt D nrrd

end Reader

section ConcreteInputs

/-- The byte stream of the C1 scenario of the specification: magic line
NRRD0005, the five field lines, a blank line, and the 16 little-endian
float32 bytes of the values 1.0, 2.0, 3.0, 4.0. -/
def c1Stream : List Nat :=
  strB "NRRD0005\ntype: float\ndimension: 2\nsizes: 2 2\nendian: little\nencoding: raw\n\n"
    ++ [0, 0, 128, 63, 0, 0, 0, 64, 0, 0, 64, 64, 0, 0, 128, 64]

/-- A header in which every field identifier appears exactly once. -/
def c2Stream : List Nat :=
  strB "NRRD0005\ndimension: 2\n"

/-- A version-1 header whose body is just a blank line. -/
def c3Stream : List Nat :=
  strB "NRRD0001\n\n"

/-- Required fields of a complete float header, endian present. -/
def rfFloatLittle : RequiredFields where
  dimension := some 2
  sizes := some [2, 2]
  pixel_type := some .Float32
  encoding := some .Raw
  endian := some .Little

/-- Required fields of a complete int8 header with no endian field. -/
def rfInt8NoEndian : RequiredFields where
  dimension := some 2
  sizes := some [2, 2]
  pixel_type := some .Int8
  encoding := some .Raw

/-- An image of dimension 2^31: every per-axis size (all zero) fits in
`i32`, but the dimension itself does not. -/
def bigImage : Image PixelType.UInt8 (2 ^ 31) where
  pixels := []
  sizes := List.replicate (2 ^ 31) 0
  h_sizes := List.length_replicate _ _
  h_pixels := by
    rw [List.prod_eq_zero (List.mem_replicate.mpr ⟨by norm_num, rfl⟩)]
    rfl

/-- A 2x2 one-byte-pixel image with pairwise distinct pixel values. -/
def img10 : Image PixelType.UInt8 2 where
  pixels := [10, 20, 30, 40]
  sizes := [2, 2]
  h_sizes := rfl
  h_pixels := rfl

/-- A 2x2 float32 image holding the bit patterns of 1.0, 2.0, 3.0, 4.0. -/
def img2x2 : Image PixelType.Float32 2 where
  pixels := [1065353216, 1073741824, 1077936128, 1082130432]
  sizes := [2, 2]
  h_sizes := rfl
  h_pixels := rfl

/-- A minimal well-formed on-disk record: one axis of size 1, uint8 pixel,
raw encoding, one buffer byte. -/
def wfRecord : Nrrd where
  version := .Nrrd5
  fields := []
  key_values := []
  dimension := 1
  sizes := [1]
  pixel_type := .UInt8
  encoding := .Raw
  endian := .Little
  buffer := [7]

/-- The record invariants every `Nrrd` constructed by this crate satisfies
(spec section 3): the dimension is a non-negative `i32` counting the sizes,
each size is a non-negative `i32`, and the buffer holds exactly
`product(sizes) * byte_width` bytes. -/
def NrrdWF (n : Nrrd) : Prop :=
  0 ≤ n.dimension ∧ n.dimension < 2 ^ 31 ∧
    n.sizes.length = n.dimension.toNat ∧
    (∀ s ∈ n.sizes, 0 ≤ s ∧ s < 2 ^ 31) ∧
    n.buffer.length = n.pixel_type.size * ((n.sizes.map i32ToUsize).prod)

instance (n : Nrrd) : Decidable (NrrdWF n) := by
  unfold NrrdWF
  infer_instance

end ConcreteInputs

section SupportingLemmas

theorem toLE_length (w v : Nat) : (toLE w v).length = w := by
  induction w generalizing v with
  | zero => rfl
  | succ w ih => simp [toLE, ih]

theorem to_bytes_length (w v : Nat) (e : Endian) : (to_bytes w v e).length = w := by
  cases e <;> simp [to_bytes, toLE_length]

theorem fromLE_toLE (w v : Nat) (hv : v < 256 ^ w) : fromLE (toLE w v) = v := by
  induction w generalizing v with
  | zero =>
    interval_cases v
    rfl
  | succ w ih =>
    have hdiv : v / 256 < 256 ^ w := by
      apply Nat.div_lt_of_lt_mul
      calc v < 256 ^ (w + 1) := hv
        _ = 256 * 256 ^ w := by ring
    simp only [toLE, fromLE, ih _ hdiv, Nat.mod_mod_of_dvd]
    omega

theorem fromLE_lt (l : List Nat) : fromLE l < 256 ^ l.length := by
  induction l with
  | nil => simp [fromLE]
  | cons b rest ih =>
    have hb : b % 256 < 256 := Nat.mod_lt _ (by norm_num)
    calc fromLE (b :: rest) = b % 256 + 256 * fromLE rest := rfl
      _ < 256 + 256 * fromLE rest := by omega
      _ ≤ 256 + 256 * (256 ^ rest.length - 1) := by
          have := Nat.le_sub_one_of_lt ih
          omega
      _ ≤ 256 ^ (b :: rest).length := by
          have hpos : 1 ≤ 256 ^ rest.length := Nat.one_le_pow _ _ (by norm_num)
          rw [List.length_cons, pow_succ, Nat.mul_comm]
          omega

theorem fromBytesTrunc_lt (w : Nat) (buf : List Nat) (e : Endian) :
    fromBytesTrunc w buf e < 2 ^ (8 * w) := by
  have h256 : (256 : Nat) ^ w = 2 ^ (8 * w) := by
    rw [show (256 : Nat) = 2 ^ 8 by norm_num, ← pow_mul]
  have hlen : (buf.take w).length ≤ w := by simp
  cases e with
  | Little =>
    calc fromBytesTrunc w buf .Little < 256 ^ (buf.take w).length := fromLE_lt _
      _ ≤ 256 ^ w := Nat.pow_le_pow_right (by norm_num) hlen
      _ = 2 ^ (8 * w) := h256
  | Big =>
    calc fromBytesTrunc w buf .Big < 256 ^ (buf.take w).reverse.length := fromLE_lt _
      _ ≤ 256 ^ w := Nat.pow_le_pow_right (by norm_num) (by simp)
      _ = 2 ^ (8 * w) := h256

/-- Round trip of the codec on exactly-`w`-byte buffers. -/
theorem fromBytesTrunc_to_bytes (w v : Nat) (e : Endian) (hv : v < 2 ^ (8 * w)) :
    fromBytesTrunc w (to_bytes w v e) e = v := by
  have hv' : v < 256 ^ w := by
    rwa [show (256 : Nat) = 2 ^ 8 by norm_num, ← pow_mul]
  cases e with
  | Little =>
    simp [fromBytesTrunc, to_bytes, List.take_of_length_le (le_of_eq (toLE_length w v)),
      fromLE_toLE w v hv']
  | Big =>
    have hlen : (toLE w v).reverse.length = w := by simp [toLE_length]
    simp [fromBytesTrunc, to_bytes, List.take_of_length_le (le_of_eq hlen),
      fromLE_toLE w v hv']

/-- The `usize -> i32 -> usize` cast round trip is the identity below
2^31. -/
theorem cast_roundtrip (n : Nat) (h : n < 2 ^ 31) : i32ToUsize (usizeToI32 n) = n := by
  have h32 : n % 2 ^ 32 = n := Nat.mod_eq_of_lt (by omega)
  simp only [usizeToI32, i32ToUsize, h32]
  rw [if_pos (by exact_mod_cast h)]
  rw [Int.emod_eq_of_lt (by positivity) (by exact_mod_cast by omega)]
  simp

/-- An empty line never matches the break, comment, field, or key-value
branches of the body-line loop: it always produces the Unexpected-line
error (this is why the end-of-stream case of `readBody` is an error). -/
theorem classifyLine_nil (v : Version) (fields : List Field) (kvs : List KeyValue)
    (rf : RequiredFields) (n : Nat) :
    classifyLine v [] fields kvs rf n = .fail (.MalformedUnexpectedLine n []) := by
  cases v <;> rfl

/-- `usize -> i32` is the identity below 2^31. -/
theorem usizeToI32_small (n : Nat) (h : n < 2 ^ 31) : usizeToI32 n = (n : Int) := by
  have h32 : n % 2 ^ 32 = n := Nat.mod_eq_of_lt (by omega)
  simp only [usizeToI32, h32]
  rw [if_pos (by exact_mod_cast h)]

/-- `i32 -> usize` of a non-negative `i32` is `toNat`. -/
theorem i32ToUsize_nonneg (x : Int) (h0 : 0 ≤ x) (h1 : x < 2 ^ 31) :
    i32ToUsize x = x.toNat := by
  simp only [i32ToUsize]
  rw [Int.emod_eq_of_lt h0 (by omega)]

/-- Length of the encoder buffer: the per-pixel blocks have length `w`, so
the flattened buffer has `w` bytes per pixel. -/
theorem flatten_map_to_bytes_length (w : Nat) (e : Endian) (ps : List Nat) :
    ((ps.map (fun p => to_bytes w p e)).flatten).length = ps.length * w := by
  induction ps with
  | nil => simp
  | cons p ps ih =>
    simp only [List.map_cons, List.flatten_cons, List.length_append, to_bytes_length, ih,
      List.length_cons]
    ring

/-- Reduction of `tryFromNrrd` on its success path. -/
theorem tryFromNrrd_success (pt : PixelType) (D : Nat) (n : Nrrd)
    (h1 : i32ToUsize n.dimension = D) (h2 : pt = n.pixel_type)
    (h3 : n.encoding = Encoding.Raw) (h4 : D ≤ n.sizes.length)
    (h5 : ((n.sizes.take D).map i32ToUsize).prod * pt.size ≤ n.buffer.length) :
    tryFromNrrd pt D n = some (Except.ok (mkDecoded pt D
      ((n.sizes.take D).map i32ToUsize) n.buffer n.endian
      (by simp [Nat.min_eq_left h4]))) := by
  unfold tryFromNrrd
  rw [if_neg (by simp [h1]), if_neg (by simp [h2]), if_neg (by simp [h3]),
    dif_pos h4, if_pos h5]

/-- The sizes stored by the encoder cast back to the original sizes when
every size fits in `i32`. -/
theorem fromImage_sizes_cast (pt : PixelType) (D : Nat) (img : Image pt D)
    (hsz : ∀ s ∈ img.sizes, s < 2 ^ 31) :
    ((Nrrd.fromImage img).sizes.map i32ToUsize) = img.sizes := by
  show ((img.sizes.map (fun s => usizeToI32 s)).map i32ToUsize) = img.sizes
  rw [List.map_map]
  calc img.sizes.map (fun s => i32ToUsize (usizeToI32 s))
      = img.sizes.map id := List.map_congr_left (fun s hs => cast_roundtrip s (hsz s hs))
    _ = img.sizes := List.map_id _

/-- Length of the encoder record sizes. -/
theorem fromImage_sizes_length (pt : PixelType) (D : Nat) (img : Image pt D) :
    (Nrrd.fromImage img).sizes.length = D := by
  show (img.sizes.map _).length = D
  simp [img.h_sizes]

/-- Length of the encoder record buffer. -/
theorem fromImage_buffer_length (pt : PixelType) (D : Nat) (img : Image pt D) :
    (Nrrd.fromImage img).buffer.length = img.pixels.length * pt.size := by
  show ((img.pixels.map _).flatten).length = _
  exact flatten_map_to_bytes_length pt.size .Little img.pixels

/-- Prepending a full `w`-byte block: the decoder only looks at the first
`w` bytes. -/
theorem fromBytesTrunc_append (w : Nat) (b r : List Nat) (e : Endian)
    (h : b.length = w) :
    fromBytesTrunc w (b ++ r) e = fromBytesTrunc w b e := by
  cases e <;> simp [fromBytesTrunc, List.take_left' h, List.take_of_length_le h.le]

/-- Decoding the concatenated per-pixel blocks at stride-ordered offsets
recovers the original pixel list. -/
theorem decode_encode_list (w : Nat) (e : Endian) (ps : List Nat)
    (hb : ∀ p ∈ ps, p < 2 ^ (8 * w)) :
    (List.range ps.length).map
        (fun i => fromBytesTrunc w (((ps.map (fun p => to_bytes w p e)).flatten).drop (i * w)) e)
      = ps := by
  induction ps with
  | nil => simp
  | cons p ps ih =>
    have hw : (to_bytes w p e).length = w := to_bytes_length w p e
    have hdropW : ((p :: ps).map (fun q => to_bytes w q e)).flatten.drop w
        = (ps.map (fun q => to_bytes w q e)).flatten := by
      simp only [List.map_cons, List.flatten_cons]
      exact List.drop_left' hw
    rw [List.length_cons, List.range_succ_eq_map, List.map_cons, List.map_map]
    congr 1
    · rw [Nat.zero_mul, List.drop_zero]
      simp only [List.map_cons, List.flatten_cons]
      rw [fromBytesTrunc_append w _ _ e hw]
      exact fromBytesTrunc_to_bytes w p e (hb p (List.mem_cons_self p ps))
    · rw [List.map_congr_left (g := fun i =>
        fromBytesTrunc w (((ps.map (fun q => to_bytes w q e)).flatten).drop (i * w)) e)]
      · exact ih (fun q hq => hb q (List.mem_cons_of_mem p hq))
      · intro i _
        simp only [Function.comp_apply]
        rw [Nat.succ_mul, Nat.add_comm, ← List.drop_drop, hdropW]

/-- Every sort key of the writer is one of the four priority values. -/
theorem field_order_mem (f : Field) :
    field_order f = 0 ∨ field_order f = 1 ∨ field_order f = 2 ∨
      field_order f = 2 ^ 64 - 1 := by
  simp only [field_order]
  split_ifs <;> simp

/-- Inserting past a block whose keys do not exceed the new key. -/
theorem insertByKey_skip (k : Field → Nat) (f : Field) (A B : List Field)
    (hA : ∀ g ∈ A, k g ≤ k f) :
    insertByKey k f (A ++ B) = A ++ insertByKey k f B := by
  induction A with
  | nil => rfl
  | cons a A ih =>
    simp only [List.cons_append, insertByKey, if_pos (hA a (by simp))]
    exact congrArg (a :: ·) (ih (fun g hg => hA g (by simp [hg])))

/-- Inserting in front of a block whose keys all exceed the new key. -/
theorem insertByKey_stop (k : Field → Nat) (f : Field) (B : List Field)
    (hB : ∀ g ∈ B, ¬ k g ≤ k f) :
    insertByKey k f B = f :: B := by
  cases B with
  | nil => rfl
  | cons b B => simp only [insertByKey, if_neg (hB b (by simp))]

/-- Inserting between two blocks. -/
theorem insertByKey_blocks (k : Field → Nat) (f : Field) (A B : List Field)
    (hA : ∀ g ∈ A, k g ≤ k f) (hB : ∀ g ∈ B, ¬ k g ≤ k f) :
    insertByKey k f (A ++ B) = A ++ f :: B := by
  rw [insertByKey_skip k f A B hA, insertByKey_stop k f B hB]

/-- The left-to-right insertion sort processes an appended element last. -/
theorem sortByKey_append_single (k : Field → Nat) (l : List Field) (f : Field) :
    sortByKey k (l ++ [f]) = insertByKey k f (sortByKey k l) := by
  simp [sortByKey, List.foldl_append]

/-- The stable sort by `field_order` is the concatenation of the four
priority classes, each in original order. -/
theorem sortByKey_field_order (l : List Field) :
    sortByKey field_order l =
      l.filter (fun f => field_order f == 0) ++ l.filter (fun f => field_order f == 1)
        ++ l.filter (fun f => field_order f == 2)
        ++ l.filter (fun f => field_order f == 2 ^ 64 - 1) := by
  induction l using List.reverseRecOn with
  | nil => rfl
  | append_singleton l f ih =>
    rw [sortByKey_append_single, ih]
    have h0 : ∀ g ∈ l.filter (fun f => field_order f == 0), field_order g = 0 := by
      intro g hg
      simpa using (List.mem_filter.mp hg).2
    have h1 : ∀ g ∈ l.filter (fun f => field_order f == 1), field_order g = 1 := by
      intro g hg
      simpa using (List.mem_filter.mp hg).2
    have h2 : ∀ g ∈ l.filter (fun f => field_order f == 2), field_order g = 2 := by
      intro g hg
      simpa using (List.mem_filter.mp hg).2
    have h3 : ∀ g ∈ l.filter (fun f => field_order f == 2 ^ 64 - 1),
        field_order g = 2 ^ 64 - 1 := by
      intro g hg
      simpa using (List.mem_filter.mp hg).2
    simp only [List.filter_append, List.filter_singleton]
    rcases field_order_mem f with hf | hf | hf | hf <;>
      simp only [hf, show ((0 : Nat) == 0) = true from rfl,
        show ((1 : Nat) == 1) = true from rfl, show ((2 : Nat) == 2) = true from rfl,
        show ((0 : Nat) == 1) = false from rfl, show ((0 : Nat) == 2) = false from rfl,
        show ((1 : Nat) == 0) = false from rfl, show ((1 : Nat) == 2) = false from rfl,
        show ((2 : Nat) == 0) = false from rfl, show ((2 : Nat) == 1) = false from rfl,
        show ((0 : Nat) == 2 ^ 64 - 1) = false by decide,
        show ((1 : Nat) == 2 ^ 64 - 1) = false by decide,
        show ((2 : Nat) == 2 ^ 64 - 1) = false by decide,
        show ((2 ^ 64 - 1 : Nat) == 0) = false by decide,
        show ((2 ^ 64 - 1 : Nat) == 1) = false by decide,
        show ((2 ^ 64 - 1 : Nat) == 2) = false by decide,
        show ((2 ^ 64 - 1 : Nat) == 2 ^ 64 - 1) = true by decide,
        cond_true, cond_false, List.append_nil]
    · -- key 0: skip nothing, stop at every later block
      rw [show l.filter (fun f => field_order f == 0) ++ l.filter (fun f => field_order f == 1)
            ++ l.filter (fun f => field_order f == 2)
            ++ l.filter (fun f => field_order f == 2 ^ 64 - 1)
          = l.filter (fun f => field_order f == 0) ++ (l.filter (fun f => field_order f == 1)
            ++ l.filter (fun f => field_order f == 2)
            ++ l.filter (fun f => field_order f == 2 ^ 64 - 1)) by simp [List.append_assoc]]
      rw [insertByKey_blocks field_order f _ _
        (fun g hg => by rw [h0 g hg, hf])
        (fun g hg => by
          rcases List.mem_append.mp hg with hg | hg
          · rcases List.mem_append.mp hg with hg | hg
            · rw [h1 g hg, hf]; omega
            · rw [h2 g hg, hf]; omega
          · rw [h3 g hg, hf]; norm_num)]
      simp [List.append_assoc]
    · -- key 1
      rw [show l.filter (fun f => field_order f == 0) ++ l.filter (fun f => field_order f == 1)
            ++ l.filter (fun f => field_order f == 2)
            ++ l.filter (fun f => field_order f == 2 ^ 64 - 1)
          = (l.filter (fun f => field_order f == 0) ++ l.filter (fun f => field_order f == 1))
            ++ (l.filter (fun f => field_order f == 2)
            ++ l.filter (fun f => field_order f == 2 ^ 64 - 1)) by simp [List.append_assoc]]
      rw [insertByKey_blocks field_order f _ _
        (fun g hg => by
          rcases List.mem_append.mp hg with hg | hg
          · rw [h0 g hg, hf]; omega
          · rw [h1 g hg, hf])
        (fun g hg => by
          rcases List.mem_append.mp hg with hg | hg
          · rw [h2 g hg, hf]; omega
          · rw [h3 g hg, hf]; norm_num)]
      simp [List.append_assoc]
    · -- key 2
      rw [show l.filter (fun f => field_order f == 0) ++ l.filter (fun f => field_order f == 1)
            ++ l.filter (fun f => field_order f == 2)
            ++ l.filter (fun f => field_order f == 2 ^ 64 - 1)
          = (l.filter (fun f => field_order f == 0) ++ l.filter (fun f => field_order f == 1)
            ++ l.filter (fun f => field_order f == 2))
            ++ l.filter (fun f => field_order f == 2 ^ 64 - 1) by simp [List.append_assoc]]
      rw [insertByKey_blocks field_order f _ _
        (fun g hg => by
          rcases List.mem_append.mp hg with hg | hg
          · rcases List.mem_append.mp hg with hg | hg
            · rw [h0 g hg, hf]; omega
            · rw [h1 g hg, hf]; omega
          · rw [h2 g hg, hf])
        (fun g hg => by rw [h3 g hg, hf]; norm_num)]
      simp [List.append_assoc]
    · -- key MAX: skip every block, insert at the end
      rw [show l.filter (fun f => field_order f == 0) ++ l.filter (fun f => field_order f == 1)
            ++ l.filter (fun f => field_order f == 2)
            ++ l.filter (fun f => field_order f == 2 ^ 64 - 1)
          = (l.filter (fun f => field_order f == 0) ++ l.filter (fun f => field_order f == 1)
            ++ l.filter (fun f => field_order f == 2)
            ++ l.filter (fun f => field_order f == 2 ^ 64 - 1)) ++ [] by simp]
      rw [insertByKey_blocks field_order f _ []
        (fun g hg => by
          rcases List.mem_append.mp hg with hg | hg
          · rcases List.mem_append.mp hg with hg | hg
            · rcases List.mem_append.mp hg with hg | hg
              · rw [h0 g hg, hf]; omega
              · rw [h1 g hg, hf]; omega
            · rw [h2 g hg, hf]; omega
          · rw [h3 g hg, hf])
        (by simp)]
      simp [List.append_assoc]

/-- The writer priority key 0 picks out exactly the field named type. -/
theorem forder_eq_zero (f : Field) :
    (field_order f == 0) = (f.identifier == strB "type") := by
  simp only [field_order]
  split_ifs with h1 h2 h3
  · rw [h1]; decide
  · rw [h2]; decide
  · rw [h3]; decide
  · rw [beq_eq_false_iff_ne.mpr h1]; decide

/-- The writer priority key 1 picks out exactly the field named
dimension. -/
theorem forder_eq_one (f : Field) :
    (field_order f == 1) = (f.identifier == strB "dimension") := by
  simp only [field_order]
  split_ifs with h1 h2 h3
  · rw [h1]; decide
  · rw [h2]; decide
  · rw [h3]; decide
  · rw [beq_eq_false_iff_ne.mpr h2]; decide

/-- The writer priority key 2 picks out exactly the field named sizes. -/
theorem forder_eq_two (f : Field) :
    (field_order f == 2) = (f.identifier == strB "sizes") := by
  simp only [field_order]
  split_ifs with h1 h2 h3
  · rw [h1]; decide
  · rw [h2]; decide
  · rw [h3]; decide
  · rw [beq_eq_false_iff_ne.mpr h3]; decide

/-- The writer priority key MAX picks out exactly the fields named neither
type nor dimension nor sizes. -/
theorem forder_eq_max (f : Field) :
    (field_order f == 2 ^ 64 - 1) =
      (!(f.identifier == strB "type" || f.identifier == strB "dimension"
        || f.identifier == strB "sizes")) := by
  simp only [field_order]
  split_ifs with h1 h2 h3
  · rw [h1]; decide
  · rw [h2]; decide
  · rw [h3]; decide
  · rw [beq_eq_false_iff_ne.mpr h1, beq_eq_false_iff_ne.mpr h2,
      beq_eq_false_iff_ne.mpr h3]
    decide

end SupportingLemmas

section ClaimTheorems

/-- C1: the specification scenario — magic line NRRD0005, the five field
lines, a blank line, and 16 bytes of little-endian float32 data — is
claimed to decode through `Image::try_read_nrrd` to an Ok image of sizes
2x2.  The code instead fails at the very first field line: `HashSet::insert`
returns true when the value is NEW, and `read_header` raises
`DuplicateField` exactly on that return value, so the first occurrence of
the field named type aborts the parse with a DuplicateField error naming
it and line 1. -/
theorem c1_scenario_code_bug :
    Image.try_read_nrrd PixelType.Float32 2 c1Stream =
      some (Except.error (ImageFromNrrdErr.CannotReadNrrd
        (ReadNrrdErr.DuplicateField (strB "type") 1))) := by
  rfl

/-- C2: the claim says a header in which each field identifier appears at
most once never raises `DuplicateField`.  The code raises `DuplicateField`
on the FIRST insertion of every field (the inverted `HashSet::insert`
check), so the single field line of this header already fails, naming the
identifier dimension and line 1. -/
theorem c2_duplicate_field_code_bug :
    read_nrrd c2Stream = Except.error (ReadNrrdErr.DuplicateField (strB "dimension") 1) := by
  rfl

/-- C3: the claim says the body-line loop terminates successfully on a line
that strips to the empty string.  The code compares the ALREADY-STRIPPED
line against a literal newline, which can never match, so the blank line
falls through to the Unexpected-line error instead of ending the header
(a successful break would instead reach final validation and report the
missing DIMENSION field here). -/
theorem c3_blank_line_code_bug :
    read_nrrd c3Stream = Except.error (ReadNrrdErr.MalformedUnexpectedLine 1 []) := by
  rfl

/-- C4: the claim says final validation succeeds whenever an endian field
was parsed (for non-Block pixel types).  The match in
`RequiredFields::validate` accepts ONLY the two patterns with an absent
endian and an 8-bit type, so a fully populated float header with
endian little is rejected with the missing-ENDIAN error, while the same
header with an 8-bit type and no endian is accepted. -/
theorem c4_endian_validation_code_bug :
    RequiredFields.validate rfFloatLittle = Except.error ReadNrrdErr.MalformedMissingEndian ∧
      RequiredFields.validate rfInt8NoEndian = Except.ok rfInt8NoEndian := by
  exact ⟨rfl, rfl⟩

/-- C5: for every supported scalar type (modelled by its non-Block
`PixelType` tag and byte width), every representable bit pattern v (NaN
payloads of the float types included) and both endian values, decoding the
bytes produced by encoding v yields v: from_bytes(to_bytes(v, e), e) = v. -/
theorem c5_codec_roundtrip (pt : PixelType) (_hpt : pt.isScalar) (e : Endian)
    (v : Nat) (hv : v < 2 ^ (8 * pt.size)) :
    from_bytes pt.size (to_bytes pt.size v e) e = some v := by
  rw [from_bytes, if_pos (le_of_eq (to_bytes_length _ _ _).symm),
    fromBytesTrunc_to_bytes _ _ _ hv]

/-- Witness for C5: the float32 quiet-NaN bit pattern 0x7FC00001 survives a
big-endian round trip. -/
theorem c5_codec_roundtrip_witness :
    PixelType.isScalar .Float32 ∧ 2143289345 < 2 ^ (8 * PixelType.size .Float32) ∧
      from_bytes (PixelType.size .Float32)
        (to_bytes (PixelType.size .Float32) 2143289345 .Big) .Big = some 2143289345 := by
  refine ⟨by decide, by decide, c5_codec_roundtrip .Float32 (by decide) .Big 2143289345 (by decide)⟩

/-- C6 counterexample: the claim as stated quantifies over every
`Image<T, D>` whose per-axis sizes fit in `i32`, with no bound on `D`
itself.  For `D = 2^31` (sizes all zero, hence all fitting in `i32`, and an
empty pixel buffer) the encoder computes `dimension = D as i32 = -2^31`;
the decoder then casts it back with `as usize`, obtaining `2^64 - 2^31`,
which differs from `D`, so the round trip fails with
`DimensionsDoNotMatch` instead of succeeding. -/
theorem c6_roundtrip_counterexample :
    (∀ s ∈ bigImage.sizes, s < 2 ^ 31) ∧
      tryFromNrrd PixelType.UInt8 (2 ^ 31) (Nrrd.fromImage bigImage) =
        some (Except.error ImageFromNrrdErr.DimensionsDoNotMatch) := by
  constructor
  · intro s hs
    rw [List.eq_of_mem_replicate hs]
    norm_num
  · have hdim : (Nrrd.fromImage bigImage).dimension = usizeToI32 (2 ^ 31) := rfl
    have hval : usizeToI32 (2 ^ 31) = -(2 ^ 31) := by norm_num [usizeToI32]
    have hne : i32ToUsize (Nrrd.fromImage bigImage).dimension ≠ 2 ^ 31 := by
      rw [hdim, hval]
      norm_num [i32ToUsize]
      decide
    unfold tryFromNrrd
    rw [if_pos hne]

/-- C6 (amended): for every image whose per-axis sizes fit in `i32` AND
whose dimension `D` is below 2^31, encoding through `From<&Image<T, D>>`
and decoding through `TryFrom<&Nrrd>` succeeds and reproduces the pixel
buffer bit-identically (every representable bit pattern, NaN payloads
included) together with the sizes. -/
theorem c6_roundtrip_amended (pt : PixelType) (D : Nat) (img : Image pt D)
    (_hpt : pt.isScalar) (hD : D < 2 ^ 31) (hsz : ∀ s ∈ img.sizes, s < 2 ^ 31)
    (hv : ∀ p ∈ img.pixels, p < 2 ^ (8 * pt.size)) :
    ∃ img2 : Image pt D, tryFromNrrd pt D (Nrrd.fromImage img) = some (Except.ok img2) ∧
      img2.pixels = img.pixels ∧ img2.sizes = img.sizes := by
  have hdim : i32ToUsize (Nrrd.fromImage img).dimension = D := by
    show i32ToUsize (usizeToI32 D) = D
    exact cast_roundtrip D hD
  have hlen : (Nrrd.fromImage img).sizes.length = D := fromImage_sizes_length pt D img
  have htake : (Nrrd.fromImage img).sizes.take D = (Nrrd.fromImage img).sizes :=
    List.take_of_length_le hlen.le
  have hsizes : ((Nrrd.fromImage img).sizes.take D).map i32ToUsize = img.sizes := by
    rw [htake]
    exact fromImage_sizes_cast pt D img hsz
  have hbuflen : (Nrrd.fromImage img).buffer.length = img.pixels.length * pt.size :=
    fromImage_buffer_length pt D img
  have hguard : (((Nrrd.fromImage img).sizes.take D).map i32ToUsize).prod * pt.size
      ≤ (Nrrd.fromImage img).buffer.length := by
    rw [hsizes, hbuflen, ← img.h_pixels]
  refine ⟨_, tryFromNrrd_success pt D _ hdim rfl rfl hlen.symm.le hguard, ?_, ?_⟩
  · show (List.range ((((Nrrd.fromImage img).sizes.take D).map i32ToUsize).prod)).map
        (fun i => fromBytesTrunc pt.size ((Nrrd.fromImage img).buffer.drop (i * pt.size))
          (Nrrd.fromImage img).endian) = img.pixels
    have hend : (Nrrd.fromImage img).endian = Endian.Little := rfl
    have hbuf : (Nrrd.fromImage img).buffer
        = (img.pixels.map (fun p => to_bytes pt.size p Endian.Little)).flatten := rfl
    rw [hsizes, ← img.h_pixels, hend, hbuf]
    exact decode_encode_list pt.size .Little img.pixels hv
  · show ((Nrrd.fromImage img).sizes.take D).map i32ToUsize = img.sizes
    exact hsizes

/-- Witness for C6 (amended): a 2x2 float32 image whose pixels are the bit
patterns of 1.0, 2.0, 3.0, 4.0 round-trips exactly. -/
theorem c6_roundtrip_witness :
    ∃ img2 : Image PixelType.Float32 2,
      tryFromNrrd PixelType.Float32 2 (Nrrd.fromImage img2x2) = some (Except.ok img2) ∧
        img2.pixels = img2x2.pixels ∧ img2.sizes = img2x2.sizes :=
  c6_roundtrip_amended PixelType.Float32 2 img2x2 (by decide) (by decide) (by decide) (by decide)

/-- C7: the decoder checks dimension, pixel type, and encoding, in this
order, and each failure yields the corresponding error; when all three
checks pass on a well-formed record (the invariants every record built by
this crate satisfies), the conversion returns Ok. -/
theorem c7_tryfrom_checks (pt : PixelType) (D : Nat) (n : Nrrd)
    (hWF : NrrdWF n) (hD : D < 2 ^ 31) :
    (n.dimension ≠ (D : Int) →
      tryFromNrrd pt D n = some (Except.error ImageFromNrrdErr.DimensionsDoNotMatch)) ∧
    (n.dimension = (D : Int) → pt ≠ n.pixel_type →
      tryFromNrrd pt D n = some (Except.error ImageFromNrrdErr.PixelTypesDoNotMatch)) ∧
    (n.dimension = (D : Int) → pt = n.pixel_type → n.encoding ≠ Encoding.Raw →
      tryFromNrrd pt D n = some (Except.error ImageFromNrrdErr.UnsupportedEncoding)) ∧
    (n.dimension = (D : Int) → pt = n.pixel_type → n.encoding = Encoding.Raw →
      ∃ img : Image pt D, tryFromNrrd pt D n = some (Except.ok img)) := by
  obtain ⟨hd0, hd31, hlen, _hszs, hbuf⟩ := hWF
  have hcast : i32ToUsize n.dimension = n.dimension.toNat := i32ToUsize_nonneg _ hd0 hd31
  have hiff : (i32ToUsize n.dimension = D) ↔ n.dimension = (D : Int) := by
    rw [hcast]
    omega
  refine ⟨?_, ?_, ?_, ?_⟩
  · intro hne
    unfold tryFromNrrd
    rw [if_pos (fun h => hne (hiff.mp h))]
  · intro heq hpt
    unfold tryFromNrrd
    rw [if_neg (by simp [hiff.mpr heq]), if_pos hpt]
  · intro heq hpt henc
    unfold tryFromNrrd
    rw [if_neg (by simp [hiff.mpr heq]), if_neg (by simp [hpt]), if_pos henc]
  · intro heq hpt henc
    have hDlen : n.sizes.length = D := by
      rw [hlen]
      omega
    have h5 : ((n.sizes.take D).map i32ToUsize).prod * pt.size ≤ n.buffer.length := by
      rw [List.take_of_length_le hDlen.le, hbuf, Nat.mul_comm, hpt]
    exact ⟨_, tryFromNrrd_success pt D n (hiff.mpr heq) hpt henc hDlen.symm.le h5⟩

/-- Witness for C7: the well-formed one-pixel uint8 record converts to an
image when the dimension, type, and encoding all match. -/
theorem c7_tryfrom_checks_witness :
    ∃ img : Image PixelType.UInt8 1, tryFromNrrd PixelType.UInt8 1 wfRecord = some (Except.ok img) :=
  (c7_tryfrom_checks PixelType.UInt8 1 wfRecord (by decide) (by decide)).2.2.2
    (by decide) (by decide) (by decide)

/-- C9 counterexample: the claimed invariant `dimension = D` fails for the
image of dimension 2^31 whose per-axis sizes (all zero) each fit in `i32`:
the encoder stores `D as i32 = -2^31`. -/
theorem c9_invariants_counterexample :
    (∀ s ∈ bigImage.sizes, s < 2 ^ 31) ∧
      (Nrrd.fromImage bigImage).dimension ≠ ((2 ^ 31 : Nat) : Int) := by
  constructor
  · intro s hs
    rw [List.eq_of_mem_replicate hs]
    norm_num
  · have hdim : (Nrrd.fromImage bigImage).dimension = usizeToI32 (2 ^ 31) := rfl
    rw [hdim]
    norm_num [usizeToI32]

/-- C9 (amended): for every image whose per-axis sizes fit in `i32` AND
whose dimension `D` is below 2^31, the record produced by
`From<&Image<T, D>>` satisfies the invariants: `D` sizes entries, dimension
equal to `D`, buffer length equal to the pixel count times the byte width,
and consequently every byte window read by the decoder lies inside the
buffer. -/
theorem c9_invariants_amended (pt : PixelType) (D : Nat) (img : Image pt D)
    (hD : D < 2 ^ 31) (hsz : ∀ s ∈ img.sizes, s < 2 ^ 31) :
    (Nrrd.fromImage img).sizes.length = D ∧
      (Nrrd.fromImage img).dimension = (D : Int) ∧
      (Nrrd.fromImage img).buffer.length
        = ((Nrrd.fromImage img).sizes.map i32ToUsize).prod * pt.size ∧
      (∀ i : Nat, i < ((Nrrd.fromImage img).sizes.map i32ToUsize).prod →
        (i + 1) * pt.size ≤ (Nrrd.fromImage img).buffer.length) := by
  have hsizes : ((Nrrd.fromImage img).sizes.map i32ToUsize) = img.sizes :=
    fromImage_sizes_cast pt D img hsz
  have hbuflen : (Nrrd.fromImage img).buffer.length = img.pixels.length * pt.size :=
    fromImage_buffer_length pt D img
  refine ⟨fromImage_sizes_length pt D img, ?_, ?_, ?_⟩
  · show usizeToI32 D = (D : Int)
    exact usizeToI32_small D hD
  · rw [hsizes, hbuflen, img.h_pixels]
  · intro i hi
    rw [hsizes] at hi
    rw [hbuflen, img.h_pixels]
    exact Nat.mul_le_mul_right _ hi

/-- Witness for C9 (amended): the 2x2 float32 image of the round-trip
witness produces a record with all four invariant conclusions. -/
theorem c9_invariants_witness :
    (Nrrd.fromImage img2x2).sizes.length = 2 ∧
      (Nrrd.fromImage img2x2).dimension = ((2 : Nat) : Int) ∧
      (Nrrd.fromImage img2x2).buffer.length
        = ((Nrrd.fromImage img2x2).sizes.map i32ToUsize).prod * PixelType.size .Float32 ∧
      (∀ i : Nat, i < ((Nrrd.fromImage img2x2).sizes.map i32ToUsize).prod →
        (i + 1) * PixelType.size .Float32 ≤ (Nrrd.fromImage img2x2).buffer.length) :=
  c9_invariants_amended PixelType.Float32 2 img2x2 (by decide) (by decide)

/-- C8: the writer output is the magic line, every field as an
identifier-colon-space-descriptor line — with the fields named type,
dimension, and sizes first, in that order, and the remaining fields after
them in their original (unspecified) iteration order — then every
key-value line, then exactly one blank line, then the raw buffer bytes
verbatim with nothing appended. -/
theorem c8_writer_output (n : Nrrd) :
    write_nrrd n =
      strB "NRRD0005" ++ [10]
        ++ (((n.fields.filter (fun f => f.identifier == strB "type")
            ++ n.fields.filter (fun f => f.identifier == strB "dimension")
            ++ n.fields.filter (fun f => f.identifier == strB "sizes")
            ++ n.fields.filter (fun f => !(f.identifier == strB "type"
                || f.identifier == strB "dimension"
                || f.identifier == strB "sizes"))).map fieldLine).flatten)
        ++ (n.key_values.map kvLine).flatten
        ++ [10]
        ++ n.buffer := by
  unfold write_nrrd
  rw [sortByKey_field_order,
    List.filter_congr (fun f _ => forder_eq_zero f),
    List.filter_congr (fun f _ => forder_eq_one f),
    List.filter_congr (fun f _ => forder_eq_two f),
    List.filter_congr (fun f _ => forder_eq_max f)]

/-- C10: the coordinate-to-offset mapping performs no per-axis bounds
check.  In general, `Image::get` panics exactly when the computed flat
offset reaches the buffer length.  Concretely, on a 2x2 image the
coordinate [2, 0] — out of range on the first (non-final) axis, since its
first entry equals the first size — yields flat offset 2, below the buffer
length 4, so `get` returns without panicking the pixel 30, which is the
pixel stored at the different, in-range coordinate [0, 1]. -/
theorem c10_offset_unchecked :
    (∀ (pt : PixelType) (D : Nat) (img : Image pt D) (idx : List Nat),
        img.get? idx = none ↔ img.pixels.length ≤ img.offsetOf idx) ∧
      img10.sizes = [2, 2] ∧
      img10.offsetOf [2, 0] < img10.pixels.length ∧
      img10.get? [2, 0] = some 30 ∧
      img10.get? [0, 1] = some 30 := by
  refine ⟨?_, rfl, by decide, by decide, by decide⟩
  intro pt D img idx
  simp [Image.get?, List.getElem?_eq_none_iff]

end ClaimTheorems

end RustyNrrd
